import Mathlib

/-!
Shallow embedding of the matchmyskills profile-management feature:
`src/lib/profileHelpers.js` (uploadResume, saveProfile, loadProfile,
getCurrentUserWithProfile), the `profiles` table schema with its
UNIQUE(user_id) constraint and `update_updated_at_column` BEFORE UPDATE
trigger, and the ProfileForm component's `handleFileChange` /
`handleSubmit` logic.

JavaScript objects are modelled as association lists with first-match
lookup and replace-first-or-append update, so that object-literal spread
(`{ a, ...obj, b }`, later keys win) is `objSpread` below. Backend
behaviour (Supabase storage, auth, PostgREST) is supplied by oracle
parameters covering success, reported errors and thrown exceptions; the
try/catch wrappers of the helpers map every oracle outcome to a plain
result value, so each helper is a total function.
-/

namespace MatchMySkills

/-- A JSON-ish value as it occurs in the profile payloads: strings and
arrays of strings. -/
inductive JValue where
  | str (s : String)
  | arr (l : List String)
deriving DecidableEq, Repr

/-- A JavaScript object: an association list of key/value pairs with
first-match lookup. -/
abbrev JObj := List (String × JValue)

/-- Property lookup, first match wins (association lists built by
`JObj.set` never hold duplicate keys). -/
def JObj.get : JObj → String → Option JValue
  | [], _ => none
  | (k', v') :: rest, k => if k' = k then some v' else JObj.get rest k

/-- Setting a property: replace the first binding of the key in place, or
append a new binding, as JavaScript property assignment does. -/
def JObj.set : JObj → String → JValue → JObj
  | [], k, v => [(k, v)]
  | (k', v') :: rest, k, v =>
    if k' = k then (k, v) :: rest else (k', v') :: JObj.set rest k v

/-- Object spread `{ ...base, ...o }`: write each property of `o` into
`base` in order, later keys overriding earlier ones. -/
def objSpread (base : JObj) (o : JObj) : JObj :=
  o.foldl (fun acc p => acc.set p.1 p.2) base

/-- Split a character list at every occurrence of `sep`, mirroring
JavaScript `String.prototype.split` (an empty input yields one empty
segment, adjacent separators yield empty segments). -/
def splitOnChar (sep : Char) : List Char → List (List Char)
  | [] => [[]]
  | c :: rest =>
    match splitOnChar sep rest with
    | [] => [[]]
    | seg :: segs => if c = sep then [] :: seg :: segs else (c :: seg) :: segs

/-- The whitespace characters stripped by JavaScript `trim` that can occur
in form input. -/
def isJsSpace (c : Char) : Bool :=
  c = ' ' ∨ c = '\t' ∨ c = '\n' ∨ c = '\r'

/-- `String.prototype.trim`: drop whitespace from both ends. -/
def trimChars (l : List Char) : List Char :=
  ((l.dropWhile isJsSpace).reverse.dropWhile isJsSpace).reverse

/-- The skills/interests conversion in `handleSubmit`:
`text.split(',').map(s => s.trim()).filter(s => s.length > 0)`. -/
def parseCsv (s : String) : List String :=
  (((splitOnChar ',' s.data).map (fun l => String.mk (trimChars l))).filter
    (fun t => t ≠ ""))

/-- A browser `File` as used by the helpers: mime type, byte size, name. -/
structure RFile where
  type : String
  size : Nat
  name : String
deriving DecidableEq, Repr

/-- Result shape of `uploadResume`:
`{success: boolean, url?: string, error?: string}`. -/
structure UploadResult where
  success : Bool
  url : Option String
  error : Option String
deriving DecidableEq, Repr

/-- Outcome of the `supabase.storage.from('resumes').upload` call:
success, an error reply, or a thrown exception caught by the helper. -/
inductive StoreReply where
  | ok
  | err (msg : String)
  | thrown (msg : String)
deriving DecidableEq, Repr

/-- `const allowedTypes = [...]` in `uploadResume`. -/
def allowedTypes : List String :=
  ["application/pdf", "application/msword",
   "application/vnd.openxmlformats-officedocument.wordprocessingml.document"]

/-- `const maxSize = 10 * 1024 * 1024` in `uploadResume`. -/
def maxSize : Nat := 10 * 1024 * 1024

/-- `file.name.split('.').pop()`. -/
def fileExt (name : String) : String :=
  String.mk ((splitOnChar '.' name.data).getLastD [])

/-- The storage key derived in `uploadResume`:
`${userId}/${timestamp}.${fileExtension}`. -/
def uploadFileName (userId : String) (ts : Nat) (name : String) : String :=
  userId ++ "/" ++ toString ts ++ "." ++ fileExt name

/-- `uploadResume(file, userId)`, with `Date.now()` and the storage backend
as oracles. The second component lists the storage keys for which the
store's upload endpoint was actually called. -/
def uploadResume (file : RFile) (userId : String) (ts : Nat)
    (storeReply : String → RFile → StoreReply) (publicUrl : String → String) :
    UploadResult × List String :=
  if ¬ allowedTypes.contains file.type then
    ({ success := false, url := none,
       error := some "Invalid file type. Please upload a PDF, DOC, or DOCX file." },
     [])
  else if file.size > maxSize then
    ({ success := false, url := none,
       error := some "File size too large. Please upload a file smaller than 10MB." },
     [])
  else
    let fileName := uploadFileName userId ts file.name
    match storeReply fileName file with
    | StoreReply.err m =>
      ({ success := false, url := none, error := some ("Upload failed: " ++ m) },
       [fileName])
    | StoreReply.thrown m =>
      ({ success := false, url := none, error := some ("Upload failed: " ++ m) },
       [fileName])
    | StoreReply.ok =>
      ({ success := true, url := some (publicUrl fileName), error := none },
       [fileName])

/-- Outcome of `supabase.auth.getUser()` as seen by a helper: a resolved
user id, no user (an auth error or a null user), or a thrown exception. -/
inductive AuthReply where
  | ok (uid : String)
  | noUser
  | thrown (msg : String)
deriving DecidableEq, Repr

/-- Outcome of the `profiles` upsert request: success, an error reply, or
a thrown exception caught by the helper. -/
inductive DbReply where
  | ok
  | err (msg : String)
  | thrown (msg : String)
deriving DecidableEq, Repr

/-- Result shape of `saveProfile`:
`{success: boolean, data?: row, error?: string}`. -/
structure SaveResult where
  success : Bool
  data : Option JObj
  error : Option String
deriving DecidableEq, Repr

/-- The payload built by `saveProfile`:
`{ user_id: user.id, ...profileData, updated_at: new Date().toISOString() }`.
Spread order means a `user_id` property of `profileData` overrides the
first entry, while `updated_at` is written last and always wins. -/
def profileToSave (uid : String) (profileData : JObj) (clientNow : String) : JObj :=
  (objSpread (JObj.set [] "user_id" (JValue.str uid)) profileData).set
    "updated_at" (JValue.str clientNow)

/-- Does a row belong to owner `u`? (`user_id` column equals `u`). -/
def owns (u : String) (r : JObj) : Bool :=
  JObj.get r "user_id" = some (JValue.str u)

/-- All rows of the `profiles` table belonging to owner `u`. -/
def rowsFor (db : List JObj) (u : String) : List JObj :=
  db.filter (owns u)

/-- Does any row of the table share the payload's `user_id`? This is the
conflict test of `upsert(..., { onConflict: 'user_id' })` backed by the
UNIQUE constraint on `user_id`. -/
def hasConflict (db : List JObj) (payload : JObj) : Bool :=
  db.any (fun r => JObj.get r "user_id" = JObj.get payload "user_id")

/-- The merge applied to a conflicting row: PostgREST's merge-duplicates
upsert issues `ON CONFLICT (user_id) DO UPDATE SET` over exactly the
payload's columns, so each payload column overwrites the existing row's
value while columns absent from the payload are retained; then the
`update_updated_at_column` BEFORE UPDATE trigger overwrites `updated_at`
with the server's `NOW()`. -/
def mergedRow (r : JObj) (payload : JObj) (serverNow : String) : JObj :=
  JObj.set (objSpread r payload) "updated_at" (JValue.str serverNow)

/-- The row as stored by the upsert and returned by `.select()`: on the
update path the (unique) existing row merged with the payload and
trigger-stamped; on the insert path the payload is stored as supplied
(the column default applies only when the column is absent, and the
payload carries `updated_at`). -/
def storedRow (db : List JObj) (payload : JObj) (serverNow : String) : JObj :=
  match db.find? (fun r => JObj.get r "user_id" = JObj.get payload "user_id") with
  | some r => mergedRow r payload serverNow
  | none => payload

/-- The `profiles` upsert keyed on `user_id`: merge the payload into every
conflicting row in place (the UNIQUE constraint keeps that to at most
one), else insert the payload. -/
def dbUpsert (db : List JObj) (payload : JObj) (serverNow : String) : List JObj :=
  if hasConflict db payload then
    db.map (fun r =>
      if JObj.get r "user_id" = JObj.get payload "user_id" then
        mergedRow r payload serverNow
      else r)
  else db ++ [payload]

/-- `saveProfile(profileData)`: resolve the user, build the payload, upsert
keyed on `user_id`, and return the stored row. Returns the result together
with the table contents after the call. -/
def saveProfile (auth : AuthReply) (profileData : JObj) (clientNow : String)
    (reply : DbReply) (db : List JObj) (serverNow : String) :
    SaveResult × List JObj :=
  match auth with
  | AuthReply.noUser =>
    ({ success := false, data := none, error := some "User not authenticated" }, db)
  | AuthReply.thrown m =>
    ({ success := false, data := none, error := some ("Failed to save profile: " ++ m) }, db)
  | AuthReply.ok uid =>
    let payload := profileToSave uid profileData clientNow
    match reply with
    | DbReply.err m =>
      ({ success := false, data := none, error := some ("Failed to save profile: " ++ m) }, db)
    | DbReply.thrown m =>
      ({ success := false, data := none, error := some ("Failed to save profile: " ++ m) }, db)
    | DbReply.ok =>
      ({ success := true, data := some (storedRow db payload serverNow), error := none },
       dbUpsert db payload serverNow)

/-- Outcome of the `select().eq('user_id', userId).single()` request in
`loadProfile`: a row, an error with a PostgREST code, or a thrown
exception. `PGRST116` is the no-rows code. -/
inductive LoadReply where
  | rows (d : JObj)
  | err (code : String) (msg : String)
  | thrown (msg : String)
deriving DecidableEq, Repr

/-- Result shape of `loadProfile`:
`{success: boolean, data?: row | null, error?: string}`. -/
structure LoadResult where
  success : Bool
  data : Option JObj
  error : Option String
deriving DecidableEq, Repr

/-- `loadProfile(userId)`: a `PGRST116` error (no row found) is normalized
to a success with null data; any other error or exception declines. -/
def loadProfile (reply : LoadReply) : LoadResult :=
  match reply with
  | LoadReply.rows d => { success := true, data := some d, error := none }
  | LoadReply.err code msg =>
    if code = "PGRST116" then { success := true, data := none, error := none }
    else { success := false, data := none, error := some ("Failed to load profile: " ++ msg) }
  | LoadReply.thrown msg =>
    { success := false, data := none, error := some ("Failed to load profile: " ++ msg) }

/-- Result shape of `getCurrentUserWithProfile`:
`{success: boolean, user?: id, profile?: row | null, error?: string}`. -/
structure UserProfileResult where
  success : Bool
  user : Option String
  profile : Option JObj
  error : Option String
deriving DecidableEq, Repr

/-- `getCurrentUserWithProfile()`: resolve the user, then delegate to
`loadProfile` for that user's id, passing its error through unchanged. -/
def getCurrentUserWithProfile (auth : AuthReply) (reply : String → LoadReply) :
    UserProfileResult :=
  match auth with
  | AuthReply.noUser =>
    { success := false, user := none, profile := none,
      error := some "User not authenticated" }
  | AuthReply.thrown m =>
    { success := false, user := none, profile := none,
      error := some ("Failed to get user data: " ++ m) }
  | AuthReply.ok uid =>
    let pr := loadProfile (reply uid)
    if pr.success then
      { success := true, user := some uid, profile := pr.data, error := none }
    else
      { success := false, user := none, profile := none, error := pr.error }

/-- The ProfileForm component state relevant to submission and file
staging: the session user, the loaded profile baseline, the notice
strings, the staged file, the known resume URL, and the text fields of
`formData`. -/
structure FormState where
  loading : Bool
  saving : Bool
  user : Option String
  profile : Option JObj
  error : String
  success : String
  resumeFile : Option RFile
  existingResumeUrl : String
  skills : String
  interests : String
  experience_level : String
  preferred_location : String
  bio : String
  github_url : String
  linkedin_url : String
  portfolio_url : String
deriving DecidableEq, Repr

/-- `handleFileChange`: `e.target.files[0]`, modelled as the head of the
event's file list. A file stages it and clears the known resume URL; no
file leaves the state untouched. -/
def handleFileChange (files : List RFile) (s : FormState) : FormState :=
  match files.head? with
  | some f => { s with resumeFile := some f, existingResumeUrl := "" }
  | none => s

/-- A helper invocation made during `handleSubmit`, in order. -/
inductive SubmitEffect where
  | uploadCall (file : RFile)
  | saveCall (payload : JObj)
deriving DecidableEq, Repr

/-- Is this effect a `saveProfile` invocation? -/
def isSaveCall : SubmitEffect → Bool
  | SubmitEffect.saveCall _ => true
  | SubmitEffect.uploadCall _ => false

/-- Every upload invocation precedes every save invocation. -/
def uploadsPrecedeSaves : List SubmitEffect → Bool
  | [] => true
  | e :: rest =>
    if isSaveCall e then rest.all isSaveCall else uploadsPrecedeSaves rest

/-- The oracle inputs consumed during one submission: `Date.now()` for the
storage key, the storage backend, the auth and database replies, the
client clock string and the server clock string. -/
structure SubmitEnv where
  ts : Nat
  storeReply : String → RFile → StoreReply
  publicUrl : String → String
  auth : AuthReply
  dbReply : DbReply
  clientNow : String
  serverNow : String

/-- The `profileData` object assembled by `handleSubmit` from the form
fields and the resolved resume URL. -/
def submitPayload (s : FormState) (resumeUrl : String) : JObj :=
  [("resume_url", JValue.str resumeUrl),
   ("skills", JValue.arr (parseCsv s.skills)),
   ("interests", JValue.arr (parseCsv s.interests)),
   ("experience_level", JValue.str s.experience_level),
   ("preferred_location", JValue.str s.preferred_location),
   ("bio", JValue.str s.bio),
   ("github_url", JValue.str s.github_url),
   ("linkedin_url", JValue.str s.linkedin_url),
   ("portfolio_url", JValue.str s.portfolio_url)]

/-- The tail of `handleSubmit` after the resume URL is resolved: assemble
`profileData`, call `saveProfile`, and update the notices; `finally`
clears the saving flag either way. -/
def submitSave (s1 : FormState) (resumeUrl : String) (db : List JObj)
    (env : SubmitEnv) (eff : List SubmitEffect) :
    FormState × List JObj × List SubmitEffect :=
  let profileData := submitPayload s1 resumeUrl
  let out := saveProfile env.auth profileData env.clientNow env.dbReply db env.serverNow
  if out.1.success then
    ({ s1 with saving := false, profile := out.1.data,
               success := "Profile saved successfully!", resumeFile := none },
     out.2, eff ++ [SubmitEffect.saveCall profileData])
  else
    ({ s1 with saving := false, error := (out.1.error).getD "" },
     out.2, eff ++ [SubmitEffect.saveCall profileData])

/-- `handleSubmit`: guard on the session user, clear the notices and set
the saving flag, upload the staged file first when present (aborting the
submission if the upload declines), then save. Returns the new component
state, the table contents after the call, and the helper invocations in
order. -/
def handleSubmit (s : FormState) (db : List JObj) (env : SubmitEnv) :
    FormState × List JObj × List SubmitEffect :=
  match s.user with
  | none => ({ s with error := "User not authenticated" }, db, [])
  | some uid =>
    let s1 := { s with saving := true, error := "", success := "" }
    match s.resumeFile with
    | some f =>
      let up := uploadResume f uid env.ts env.storeReply env.publicUrl
      if up.1.success then
        submitSave s1 ((up.1.url).getD "") db env [SubmitEffect.uploadCall f]
      else
        ({ s1 with saving := false, error := (up.1.error).getD "" }, db,
         [SubmitEffect.uploadCall f])
    | none => submitSave s1 s.existingResumeUrl db env []

/-- Well-formedness of a helper result: whenever the success flag is
false, a non-empty error message is carried. -/
def resOk (success : Bool) (error : Option String) : Prop :=
  success = false → ∃ m, error = some m ∧ m ≠ ""

/-- A file of a disallowed mime type. -/
def txtFile : RFile := { type := "text/plain", size := 5, name := "a.txt" }

/-- An allowed-type file one byte over the 10 MiB limit. -/
def bigFile : RFile :=
  { type := "application/pdf", size := 10 * 1024 * 1024 + 1, name := "big.pdf" }

/-- An allowed-type file within the size limit. -/
def okFile : RFile := { type := "application/pdf", size := 1024, name := "cv.pdf" }

/-- A ready form state for a brand-new identity `u1` with an empty
baseline: skills text `"Go, Rust"`, experience level `mid`, no staged
file, all other fields empty. -/
def freshForm : FormState :=
  { loading := false, saving := false, user := some "u1", profile := none,
    error := "", success := "", resumeFile := none, existingResumeUrl := "",
    skills := "Go, Rust", interests := "", experience_level := "mid",
    preferred_location := "", bio := "", github_url := "", linkedin_url := "",
    portfolio_url := "" }

/-- A submission environment where every backend call succeeds. -/
def okEnv : SubmitEnv :=
  { ts := 1700000000000, storeReply := fun _ _ => StoreReply.ok,
    publicUrl := fun fn => "https://cdn.example/" ++ fn,
    auth := AuthReply.ok "u1", dbReply := DbReply.ok,
    clientNow := "2026-01-01T00:00:00.000Z",
    serverNow := "2026-01-01T00:00:00.100Z" }

/-- `freshForm` with the disallowed-type file staged. -/
def stagedBadForm : FormState := { freshForm with resumeFile := some txtFile }

/-! ### Basic lemmas about the object and table model -/

/-- Appending to a non-empty string yields a non-empty string. -/
theorem append_ne_empty (a b : String) (h : a ≠ "") : a ++ b ≠ "" := by
  intro hc
  have h2 : a.length + b.length = 0 := by
    have := congrArg String.length hc
    simpa [String.length_append] using this
  have h3 : a.length = 0 := by omega
  have h4 : a = "" := by
    cases a with
    | mk d =>
      have h5 : d = [] := List.eq_nil_of_length_eq_zero h3
      simp [h5]
  exact h h4

/-- Lookup after property assignment. -/
theorem JObj.get_set (o : JObj) (k k' : String) (v : JValue) :
    JObj.get (JObj.set o k v) k' = if k' = k then some v else JObj.get o k' := by
  induction o with
  | nil =>
    by_cases hk : k' = k
    · subst hk; simp [JObj.set, JObj.get]
    · have hk2 : ¬ k = k' := fun h => hk h.symm
      simp [JObj.set, JObj.get, hk, hk2]
  | cons p rest ih =>
    obtain ⟨k₀, v₀⟩ := p
    by_cases h0 : k₀ = k
    · subst h0
      by_cases hk : k' = k₀
      · subst hk; simp [JObj.set, JObj.get]
      · have hk2 : ¬ k₀ = k' := fun h => hk h.symm
        simp [JObj.set, JObj.get, hk, hk2]
    · by_cases hk : k₀ = k'
      · subst hk
        simp [JObj.set, JObj.get, h0]
      · simp [JObj.set, JObj.get, h0, hk, ih]

/-- Spreading an object with no binding for `k` leaves `k`'s lookup in the
base unchanged. -/
theorem get_objSpread_none (o : JObj) (base : JObj) (k : String)
    (h : JObj.get o k = none) :
    JObj.get (objSpread base o) k = JObj.get base k := by
  induction o generalizing base with
  | nil => rfl
  | cons p rest ih =>
    obtain ⟨k₀, v₀⟩ := p
    have hk : ¬ k₀ = k := by
      intro hc
      simp [JObj.get, hc] at h
    have hrest : JObj.get rest k = none := by
      simpa [JObj.get, hk] using h
    have hstep : objSpread base ((k₀, v₀) :: rest) = objSpread (JObj.set base k₀ v₀) rest := rfl
    have hk2 : ¬ k = k₀ := fun hc => hk hc.symm
    rw [hstep, ih _ hrest, JObj.get_set]
    simp [hk2]

/-- When the caller-supplied fields carry no `user_id` binding, the payload
built by `saveProfile` is keyed by the resolved identity. -/
theorem get_profileToSave_user_id (uid : String) (fields : JObj) (c : String)
    (h : JObj.get fields "user_id" = none) :
    JObj.get (profileToSave uid fields c) "user_id" = some (JValue.str uid) := by
  unfold profileToSave
  rw [JObj.get_set]
  simp only [if_neg (by decide : ¬ ("user_id" : String) = "updated_at")]
  rw [get_objSpread_none _ _ _ h]
  rfl

/-- The payload built by `saveProfile` always carries the client clock in
`updated_at` (the final spread entry wins). -/
theorem get_profileToSave_updated_at (uid : String) (fields : JObj) (c : String) :
    JObj.get (profileToSave uid fields c) "updated_at" = some (JValue.str c) := by
  unfold profileToSave
  rw [JObj.get_set]
  simp

/-- The update trigger's overwrite of `updated_at` does not change row
ownership. -/
theorem owns_set_updated_at (v : String) (p : JObj) (x : JValue) :
    owns v (JObj.set p "updated_at" x) = owns v p := by
  unfold owns
  rw [JObj.get_set]
  simp [if_neg (by decide : ¬ ("user_id" : String) = "updated_at")]

/-- A key different from every key of an object has no binding. -/
theorem get_eq_none_of_keys_ne (o : JObj) (k : String)
    (h : ∀ b ∈ o, b.1 ≠ k) : JObj.get o k = none := by
  induction o with
  | nil => rfl
  | cons p rest ih =>
    obtain ⟨k₀, v₀⟩ := p
    have hk : ¬ k₀ = k := h (k₀, v₀) (List.mem_cons_self _ _)
    simp only [JObj.get, if_neg hk]
    exact ih (fun b hb => h b (List.mem_cons_of_mem _ hb))

/-- Spreading a duplicate-key-free object over any base makes the object's
own bindings win. -/
theorem get_objSpread_of_pairwise (o : JObj) (base : JObj) (k : String)
    (v : JValue) (hnd : o.Pairwise (fun a b => a.1 ≠ b.1))
    (h : JObj.get o k = some v) :
    JObj.get (objSpread base o) k = some v := by
  induction o generalizing base with
  | nil => simp [JObj.get] at h
  | cons p rest ih =>
    obtain ⟨k₀, v₀⟩ := p
    rw [List.pairwise_cons] at hnd
    have hstep : objSpread base ((k₀, v₀) :: rest)
        = objSpread (JObj.set base k₀ v₀) rest := rfl
    by_cases hk : k₀ = k
    · subst hk
      have hv : v₀ = v := by simpa [JObj.get] using h
      subst hv
      have hrest : JObj.get rest k₀ = none :=
        get_eq_none_of_keys_ne rest k₀ (fun b hb => (hnd.1 b hb).symm)
      rw [hstep, get_objSpread_none rest _ k₀ hrest, JObj.get_set]
      simp
    · have hrest : JObj.get rest k = some v := by simpa [JObj.get, hk] using h
      rw [hstep]
      exact ih (JObj.set base k₀ v₀) hnd.2 hrest

/-- Every entry of `o.set k v` is an entry of `o` or carries key `k`. -/
theorem mem_set (o : JObj) (k : String) (v : JValue) (b : String × JValue)
    (hb : b ∈ JObj.set o k v) : b ∈ o ∨ b.1 = k := by
  induction o with
  | nil =>
    have hb2 : b = (k, v) := List.mem_singleton.mp hb
    rw [hb2]
    exact Or.inr rfl
  | cons p rest ih =>
    obtain ⟨k₀, v₀⟩ := p
    by_cases hk : k₀ = k
    · rw [show JObj.set ((k₀, v₀) :: rest) k v = (k, v) :: rest by
        simp only [JObj.set, if_pos hk]] at hb
      rcases List.mem_cons.mp hb with hb2 | hb2
      · rw [hb2]
        exact Or.inr rfl
      · exact Or.inl (List.mem_cons_of_mem _ hb2)
    · rw [show JObj.set ((k₀, v₀) :: rest) k v = (k₀, v₀) :: JObj.set rest k v by
        simp only [JObj.set, if_neg hk]] at hb
      rcases List.mem_cons.mp hb with hb2 | hb2
      · rw [hb2]
        exact Or.inl (List.mem_cons_self _ _)
      · rcases ih hb2 with hb3 | hb3
        · exact Or.inl (List.mem_cons_of_mem _ hb3)
        · exact Or.inr hb3

/-- Property assignment preserves freedom from duplicate keys. -/
theorem pairwise_keys_set (o : JObj) (k : String) (v : JValue)
    (h : o.Pairwise (fun a b => a.1 ≠ b.1)) :
    (JObj.set o k v).Pairwise (fun a b => a.1 ≠ b.1) := by
  induction o with
  | nil => simp [JObj.set]
  | cons p rest ih =>
    obtain ⟨k₀, v₀⟩ := p
    rw [List.pairwise_cons] at h
    by_cases hk : k₀ = k
    · rw [show JObj.set ((k₀, v₀) :: rest) k v = (k, v) :: rest by
        simp only [JObj.set, if_pos hk]]
      rw [List.pairwise_cons]
      subst hk
      exact ⟨fun b hb => h.1 b hb, h.2⟩
    · rw [show JObj.set ((k₀, v₀) :: rest) k v = (k₀, v₀) :: JObj.set rest k v by
        simp only [JObj.set, if_neg hk]]
      rw [List.pairwise_cons]
      refine ⟨fun b hb => ?_, ih h.2⟩
      rcases mem_set rest k v b hb with hb2 | hb2
      · exact h.1 b hb2
      · rw [hb2]
        exact hk

/-- Spreading over a duplicate-key-free base keeps keys duplicate-free. -/
theorem pairwise_keys_objSpread (o : JObj) (base : JObj)
    (h : base.Pairwise (fun a b => a.1 ≠ b.1)) :
    (objSpread base o).Pairwise (fun a b => a.1 ≠ b.1) := by
  induction o generalizing base with
  | nil => exact h
  | cons p rest ih => exact ih (JObj.set base p.1 p.2) (pairwise_keys_set base p.1 p.2 h)

/-- The payload built by `saveProfile` carries no duplicate keys. -/
theorem profileToSave_keys_pairwise (u : String) (fields : JObj) (c : String) :
    (profileToSave u fields c).Pairwise (fun a b => a.1 ≠ b.1) := by
  unfold profileToSave
  exact pairwise_keys_set _ _ _
    (pairwise_keys_objSpread fields (JObj.set [] "user_id" (JValue.str u))
      (by simp [JObj.set]))

/-- Merging a payload keyed by `u` into any row yields a row owned by
`u`. -/
theorem owns_mergedRow (u : String) (r p : JObj) (t : String)
    (hp : JObj.get p "user_id" = some (JValue.str u))
    (hnd : p.Pairwise (fun a b => a.1 ≠ b.1)) :
    owns u (mergedRow r p t) = true := by
  unfold mergedRow
  rw [owns_set_updated_at]
  simp [owns, get_objSpread_of_pairwise p r _ _ hnd hp]

/-- Merging a payload keyed by `u` into any row never yields a row owned
by a different `v`. -/
theorem not_owns_mergedRow (u v : String) (r p : JObj) (t : String)
    (hp : JObj.get p "user_id" = some (JValue.str u))
    (hnd : p.Pairwise (fun a b => a.1 ≠ b.1)) (hne : v ≠ u) :
    owns v (mergedRow r p t) = false := by
  unfold mergedRow
  rw [owns_set_updated_at]
  simp only [owns, get_objSpread_of_pairwise p r _ _ hnd hp,
    decide_eq_false_iff_not]
  intro hc
  exact hne (show u = v by simpa using hc).symm

/-- A predicate whose filter is a singleton is first satisfied at that
element. -/
theorem find?_eq_of_filter_singleton {α : Type} (p : α → Bool) (l : List α) (r : α)
    (h : l.filter p = [r]) : l.find? p = some r := by
  induction l with
  | nil => simp at h
  | cons a rest ih =>
    by_cases hpa : p a = true
    · rw [List.filter_cons_of_pos hpa] at h
      simp only [List.cons.injEq] at h
      obtain ⟨rfl, h2⟩ := h
      simp [List.find?, hpa]
    · have hpa2 : p a = false := by simpa using hpa
      rw [List.filter_cons_of_neg (by simp [hpa2])] at h
      simp [List.find?, hpa2, ih h]

/-- The upsert's conflict test fires exactly when the owner already has a
row. -/
theorem hasConflict_iff (db : List JObj) (p : JObj) (u : String)
    (hp : JObj.get p "user_id" = some (JValue.str u)) :
    hasConflict db p = true ↔ rowsFor db u ≠ [] := by
  unfold hasConflict rowsFor
  rw [hp]
  constructor
  · intro h hnil
    rcases List.any_eq_true.mp h with ⟨r, hr, hmatch⟩
    have hro : owns u r = true := by simpa [owns] using hmatch
    have : r ∈ db.filter (owns u) := List.mem_filter.mpr ⟨hr, hro⟩
    rw [hnil] at this
    exact absurd this (List.not_mem_nil r)
  · intro h
    rcases List.exists_mem_of_ne_nil _ h with ⟨r, hr⟩
    rcases List.mem_filter.mp hr with ⟨hrdb, hro⟩
    exact List.any_eq_true.mpr ⟨r, hrdb, by simpa [owns] using hro⟩

/-- Filtering the owner's rows out of the updated table: every existing
row of the owner becomes its merged image. -/
theorem filter_owns_map_self (u : String) (g : JObj → JObj)
    (hg : ∀ r, owns u (g r) = true) (db : List JObj) :
    ((db.map (fun r =>
        if JObj.get r "user_id" = some (JValue.str u) then g r else r)).filter (owns u))
      = (db.filter (owns u)).map g := by
  induction db with
  | nil => rfl
  | cons a rest ih =>
    by_cases ha : JObj.get a "user_id" = some (JValue.str u)
    · have hao : owns u a = true := by simpa [owns] using ha
      simp [ha, hao, hg a, List.filter_cons, ih]
    · have hao : owns u a = false := by simpa [owns] using ha
      simp [ha, hao, List.filter_cons, ih]

/-- Merging into the owner's rows leaves every other owner's rows
unchanged. -/
theorem filter_owns_map_other (u v : String) (g : JObj → JObj) (hne : v ≠ u)
    (hgv : ∀ r, owns v (g r) = false) (db : List JObj) :
    ((db.map (fun r =>
        if JObj.get r "user_id" = some (JValue.str u) then g r else r)).filter (owns v))
      = db.filter (owns v) := by
  induction db with
  | nil => rfl
  | cons a rest ih =>
    by_cases ha : JObj.get a "user_id" = some (JValue.str u)
    · have hav : owns v a = false := by
        simp only [owns, ha, decide_eq_false_iff_not]
        intro hc
        have : u = v := by simpa using hc
        exact hne this.symm
      simp [ha, hav, hgv a, List.filter_cons, ih]
    · simp only [List.map_cons, if_neg ha, List.filter_cons, ih]

/-- After an upsert, the payload owner's rows are exactly the one stored
row (given the UNIQUE-constraint invariant on the incoming table). -/
theorem rowsFor_dbUpsert_self (db : List JObj) (p : JObj) (t u : String)
    (hp : JObj.get p "user_id" = some (JValue.str u))
    (hnd : p.Pairwise (fun a b => a.1 ≠ b.1))
    (hinv : (rowsFor db u).length ≤ 1) :
    rowsFor (dbUpsert db p t) u = [storedRow db p t] := by
  by_cases hc : hasConflict db p = true
  · have hne : rowsFor db u ≠ [] := (hasConflict_iff db p u hp).mp hc
    obtain ⟨r, hr⟩ : ∃ r, rowsFor db u = [r] := by
      cases h : rowsFor db u with
      | nil => exact absurd h hne
      | cons a l =>
        cases l with
        | nil => exact ⟨a, rfl⟩
        | cons b l2 => rw [h] at hinv; simp at hinv
    have hfind : db.find?
        (fun x => JObj.get x "user_id" = JObj.get p "user_id") = some r := by
      apply find?_eq_of_filter_singleton
      simp only [hp]
      simpa [rowsFor, owns] using hr
    unfold dbUpsert storedRow
    rw [hfind]
    simp only [hc, if_true, hp]
    unfold rowsFor at hr ⊢
    rw [filter_owns_map_self u (fun x => mergedRow x p t)
      (fun x => owns_mergedRow u x p t hp hnd) db, hr]
    rfl
  · have hnil : rowsFor db u = [] := by
      by_contra h
      exact hc ((hasConflict_iff db p u hp).mpr h)
    have hfind : db.find?
        (fun x => JObj.get x "user_id" = JObj.get p "user_id") = none := by
      rw [List.find?_eq_none]
      intro x hx
      have hxo : owns u x = false := by
        simpa [rowsFor] using List.filter_eq_nil_iff.mp hnil x hx
      simp only [hp]
      simpa [owns] using hxo
    unfold dbUpsert storedRow
    rw [hfind]
    simp only [hc, if_false, Bool.false_eq_true]
    unfold rowsFor at hnil ⊢
    rw [List.filter_append, hnil]
    simp [owns, hp]

/-- An upsert leaves every other owner's rows unchanged. -/
theorem rowsFor_dbUpsert_other (db : List JObj) (p : JObj) (t u v : String)
    (hp : JObj.get p "user_id" = some (JValue.str u))
    (hnd : p.Pairwise (fun a b => a.1 ≠ b.1)) (hne : v ≠ u) :
    rowsFor (dbUpsert db p t) v = rowsFor db v := by
  have hpv : owns v p = false := by
    simp only [owns, hp, decide_eq_false_iff_not]
    intro hcx
    exact hne (show u = v by simpa using hcx).symm
  by_cases hc : hasConflict db p = true
  · unfold dbUpsert
    simp only [hc, if_true, hp]
    exact filter_owns_map_other u v (fun x => mergedRow x p t) hne
      (fun x => not_owns_mergedRow u v x p t hp hnd hne) db
  · unfold dbUpsert
    simp only [hc, if_false, Bool.false_eq_true]
    unfold rowsFor
    rw [List.filter_append]
    simp [hpv]

/-- When the owner has no row yet, the upsert is a plain insert. -/
theorem dbUpsert_fresh (db : List JObj) (p : JObj) (t u : String)
    (hp : JObj.get p "user_id" = some (JValue.str u))
    (hnil : rowsFor db u = []) :
    dbUpsert db p t = db ++ [p] := by
  have hc : ¬ hasConflict db p = true := by
    intro h
    exact ((hasConflict_iff db p u hp).mp h) hnil
  unfold dbUpsert
  simp [hc]

/-- The second upsert for the same owner updates the freshly inserted row
in place: the table is the original one plus a single row, namely the
first payload with the second payload's columns merged over it (and the
trigger timestamp). -/
theorem dbUpsert_twice_fresh (db : List JObj) (p1 p2 : JObj) (t1 t2 u : String)
    (hp1 : JObj.get p1 "user_id" = some (JValue.str u))
    (hp2 : JObj.get p2 "user_id" = some (JValue.str u))
    (hnil : rowsFor db u = []) :
    dbUpsert (dbUpsert db p1 t1) p2 t2 = db ++ [mergedRow p1 p2 t2] := by
  rw [dbUpsert_fresh db p1 t1 u hp1 hnil]
  have hc : hasConflict (db ++ [p1]) p2 = true := by
    apply List.any_eq_true.mpr
    exact ⟨p1, by simp, by simp [hp1, hp2]⟩
  unfold dbUpsert
  simp only [hc, if_true, hp2, List.map_append, List.map_cons, List.map_nil, hp1,
    if_pos rfl]
  have hmap : db.map (fun r =>
      if JObj.get r "user_id" = some (JValue.str u) then mergedRow r p2 t2
      else r) = db := by
    rw [List.map_congr_left (fun r hr => ?_)]
    · exact List.map_id db
    · have : owns u r = false := by
        have := List.filter_eq_nil_iff.mp hnil r hr
        simpa [rowsFor] using this
      have hro : ¬ JObj.get r "user_id" = some (JValue.str u) := by
        simpa [owns] using this
      simp [hro]
  rw [hmap]

/-! ### Claim theorems -/

/-- C7: the skills/interests text-to-sequence conversion splits the field
on commas, trims whitespace from each segment and drops empty segments,
preserving order and duplicates: `"React, Node, React"` yields exactly
`["React", "Node", "React"]` and `" , ,"` yields the empty sequence. -/
theorem c7_parse_csv :
    parseCsv "React, Node, React" = ["React", "Node", "React"]
      ∧ parseCsv " , ," = [] :=
  ⟨by decide, by decide⟩

/-- C10: a file-input change event carrying no file leaves the draft state
unchanged (the staged file and the known resume URL keep their values,
as does everything else); an event carrying a file stages exactly that
file and clears the known resume URL, leaving every other component of
the state unchanged. -/
theorem c10_file_change_frame (s : FormState) (f : RFile) (rest : List RFile) :
    handleFileChange [] s = s
      ∧ handleFileChange (f :: rest) s
          = { s with resumeFile := some f, existingResumeUrl := "" } :=
  ⟨rfl, rfl⟩

/-- C5: `loadProfile` normalizes the backend's no-row condition (PostgREST
code `PGRST116`) to a success result with null data; every other backend
failure, reported or thrown, yields a declined result carrying a
message. -/
theorem c5_load_not_found (code msg : String) :
    loadProfile (LoadReply.err "PGRST116" msg)
        = { success := true, data := none, error := none }
      ∧ (code ≠ "PGRST116" →
          loadProfile (LoadReply.err code msg)
            = { success := false, data := none,
                error := some ("Failed to load profile: " ++ msg) })
      ∧ loadProfile (LoadReply.thrown msg)
          = { success := false, data := none,
              error := some ("Failed to load profile: " ++ msg) } := by
  refine ⟨by simp [loadProfile], fun h => by simp [loadProfile, h], rfl⟩

/-- Witness for C5 at a concrete non-not-found error code. -/
theorem c5_load_not_found_witness :
    ("QX07" : String) ≠ "PGRST116"
      ∧ loadProfile (LoadReply.err "QX07" "timeout")
          = { success := false, data := none,
              error := some ("Failed to load profile: " ++ "timeout") } :=
  ⟨by decide, (c5_load_not_found "QX07" "timeout").2.1 (by decide)⟩

/-- C3: `uploadResume` declines files of a disallowed mime type with the
type-error message and no store call; declines allowed-type files larger
than 10 × 1024 × 1024 bytes with the size-error message and no store
call; and proceeds to exactly one store call for allowed-type files
within the limit. -/
theorem c3_upload_validation (file : RFile) (userId : String) (ts : Nat)
    (storeReply : String → RFile → StoreReply) (publicUrl : String → String) :
    (¬ file.type ∈ allowedTypes →
      (uploadResume file userId ts storeReply publicUrl).1.success = false
        ∧ (uploadResume file userId ts storeReply publicUrl).1.error
            = some "Invalid file type. Please upload a PDF, DOC, or DOCX file."
        ∧ (uploadResume file userId ts storeReply publicUrl).2 = [])
    ∧ (file.type ∈ allowedTypes → file.size > 10 * 1024 * 1024 →
      (uploadResume file userId ts storeReply publicUrl).1.success = false
        ∧ (uploadResume file userId ts storeReply publicUrl).1.error
            = some "File size too large. Please upload a file smaller than 10MB."
        ∧ (uploadResume file userId ts storeReply publicUrl).2 = [])
    ∧ (file.type ∈ allowedTypes → file.size ≤ 10 * 1024 * 1024 →
      (uploadResume file userId ts storeReply publicUrl).2
          = [uploadFileName userId ts file.name]) := by
  refine ⟨fun hmem => ?_, fun hmem hsize => ?_, fun hmem hsize => ?_⟩
  · simp [uploadResume, hmem]
  · have hbig : file.size > maxSize := hsize
    simp [uploadResume, hmem, hbig]
  · have hsmall : ¬ file.size > maxSize := by
      simp only [maxSize]
      omega
    cases hsr : storeReply (uploadFileName userId ts file.name) file <;>
      simp [uploadResume, hmem, hsmall, hsr]

/-- Witness for C3 at three concrete files: a text file, an oversized PDF
and a small PDF. -/
theorem c3_upload_validation_witness :
    ((uploadResume txtFile "u1" 7 (fun _ _ => StoreReply.ok) id).1.success = false
      ∧ (uploadResume txtFile "u1" 7 (fun _ _ => StoreReply.ok) id).1.error
          = some "Invalid file type. Please upload a PDF, DOC, or DOCX file."
      ∧ (uploadResume txtFile "u1" 7 (fun _ _ => StoreReply.ok) id).2 = [])
    ∧ ((uploadResume bigFile "u1" 7 (fun _ _ => StoreReply.ok) id).1.success = false
      ∧ (uploadResume bigFile "u1" 7 (fun _ _ => StoreReply.ok) id).1.error
          = some "File size too large. Please upload a file smaller than 10MB."
      ∧ (uploadResume bigFile "u1" 7 (fun _ _ => StoreReply.ok) id).2 = [])
    ∧ (uploadResume okFile "u1" 7 (fun _ _ => StoreReply.ok) id).2
        = [uploadFileName "u1" 7 okFile.name] :=
  ⟨(c3_upload_validation txtFile "u1" 7 (fun _ _ => StoreReply.ok) id).1 (by decide),
   (c3_upload_validation bigFile "u1" 7 (fun _ _ => StoreReply.ok) id).2.1 (by decide)
     (by decide),
   (c3_upload_validation okFile "u1" 7 (fun _ _ => StoreReply.ok) id).2.2 (by decide)
     (by decide)⟩

/-- C2 fails on the code: object-spread order in `saveProfile` places the
caller-supplied fields after the owner key, so a caller-supplied
`user_id` overrides the resolved identity's id in the submitted payload. -/
theorem c2_counterexample :
    JObj.get (profileToSave "victim" [("user_id", JValue.str "attacker")] "t0")
        "user_id" = some (JValue.str "attacker")
      ∧ JObj.get (profileToSave "victim" [("user_id", JValue.str "attacker")] "t0")
          "user_id" ≠ some (JValue.str "victim") :=
  ⟨by decide, by decide⟩

/-- C2 amended: for every caller-supplied field object that carries no
`user_id` key, the payload submitted by `saveProfile` has its `user_id`
equal to the resolved identity's id; a caller-supplied `user_id` field
overrides it instead. -/
theorem c2_amended_owner_key (uid clientNow : String) (fields : JObj)
    (h : JObj.get fields "user_id" = none) :
    JObj.get (profileToSave uid fields clientNow) "user_id"
      = some (JValue.str uid) :=
  get_profileToSave_user_id uid fields clientNow h

/-- Witness for the amended C2 at a concrete field object without a
`user_id` key. -/
theorem c2_amended_owner_key_witness :
    JObj.get [("bio", JValue.str "hi")] "user_id" = none
      ∧ JObj.get (profileToSave "u1" [("bio", JValue.str "hi")] "t") "user_id"
          = some (JValue.str "u1") :=
  ⟨by decide, c2_amended_owner_key "u1" "t" [("bio", JValue.str "hi")] (by decide)⟩

/-- C4 fails on the code: `saveProfile` puts a client-generated
`new Date().toISOString()` into the payload, and on a first save (insert
path) that client value is what the row stores — the `updated_at` trigger
fires only BEFORE UPDATE and the column default applies only when the
column is absent. Here the client clock says 2020 while the server clock
says 2026, and the stored row carries the client's 2020 value. -/
theorem c4_counterexample :
    ((saveProfile (AuthReply.ok "u1") [] "2020-01-01T00:00:00.000Z" DbReply.ok []
        "2026-06-01T00:00:00.000Z").1.data.map (fun r => JObj.get r "updated_at"))
      = some (some (JValue.str "2020-01-01T00:00:00.000Z"))
    ∧ ("2020-01-01T00:00:00.000Z" : String) ≠ "2026-06-01T00:00:00.000Z" :=
  ⟨by decide, by decide⟩

/-- C4 amended: the save payload always carries a client-supplied
`updated_at`; the stored value is server-assigned (the trigger's `NOW()`)
on every update, but on an insert the client-supplied timestamp is what
gets stored. -/
theorem c4_amended_updated_at (db : List JObj) (fields : JObj)
    (u clientNow serverNow : String)
    (hf : JObj.get fields "user_id" = none) :
    JObj.get (profileToSave u fields clientNow) "updated_at"
        = some (JValue.str clientNow)
    ∧ (saveProfile (AuthReply.ok u) fields clientNow DbReply.ok db serverNow).1.data
        = some (storedRow db (profileToSave u fields clientNow) serverNow)
    ∧ (rowsFor db u ≠ [] →
        JObj.get (storedRow db (profileToSave u fields clientNow) serverNow)
            "updated_at" = some (JValue.str serverNow))
    ∧ (rowsFor db u = [] →
        JObj.get (storedRow db (profileToSave u fields clientNow) serverNow)
            "updated_at" = some (JValue.str clientNow)) := by
  have hp : JObj.get (profileToSave u fields clientNow) "user_id"
      = some (JValue.str u) := get_profileToSave_user_id u fields clientNow hf
  refine ⟨get_profileToSave_updated_at u fields clientNow, rfl, fun h => ?_, fun h => ?_⟩
  · have hc : hasConflict db (profileToSave u fields clientNow) = true :=
      (hasConflict_iff db _ u hp).mpr h
    obtain ⟨r, hrfind⟩ : ∃ r, db.find? (fun x => JObj.get x "user_id"
        = JObj.get (profileToSave u fields clientNow) "user_id") = some r := by
      apply Option.isSome_iff_exists.mp
      apply List.find?_isSome.mpr
      exact List.any_eq_true.mp hc
    unfold storedRow
    rw [hrfind]
    show JObj.get (mergedRow r (profileToSave u fields clientNow) serverNow)
        "updated_at" = some (JValue.str serverNow)
    unfold mergedRow
    rw [JObj.get_set]
    simp
  · have hc : ¬ hasConflict db (profileToSave u fields clientNow) = true := by
      intro hcx
      exact ((hasConflict_iff db _ u hp).mp hcx) h
    have hfind : db.find? (fun x => JObj.get x "user_id"
        = JObj.get (profileToSave u fields clientNow) "user_id") = none := by
      rw [List.find?_eq_none]
      intro x hx hpx
      exact hc (List.any_eq_true.mpr ⟨x, hx, hpx⟩)
    unfold storedRow
    rw [hfind]
    exact get_profileToSave_updated_at u fields clientNow

/-- Witness for the amended C4: a first save for `u1` stores the client
clock, a second save (update path) stores the server clock. -/
theorem c4_amended_updated_at_witness :
    JObj.get ([] : JObj) "user_id" = none
    ∧ rowsFor [] "u1" = []
    ∧ JObj.get (storedRow [] (profileToSave "u1" [] "tClient") "tServer")
        "updated_at" = some (JValue.str "tClient")
    ∧ rowsFor [[("user_id", JValue.str "u1")]] "u1" ≠ []
    ∧ JObj.get
        (storedRow [[("user_id", JValue.str "u1")]]
          (profileToSave "u1" [] "tClient") "tServer")
        "updated_at" = some (JValue.str "tServer") :=
  ⟨by decide, by decide,
   (c4_amended_updated_at [] [] "u1" "tClient" "tServer" (by decide)).2.2.2 (by decide),
   by decide,
   (c4_amended_updated_at [[("user_id", JValue.str "u1")]] [] "u1" "tClient" "tServer"
     (by decide)).2.2.1 (by decide)⟩

/-- C1: saves are upserts keyed on the owner column, so under the UNIQUE
constraint invariant a save leaves exactly one row for its identity and
preserves the at-most-one-row invariant for every identity; calling
`saveProfile` twice in succession for the same identity leaves exactly
one row for it, and when the identity had no row the final table is the
original one extended by a single row, namely the first call's inserted
payload with the second call's columns merged over it and the trigger's
timestamp — the second call updated the row created by the first instead
of inserting a new one. -/
theorem c1_save_upsert_single_row (db : List JObj) (fields1 fields2 : JObj)
    (u tc1 tc2 ts1 ts2 : String)
    (hinv : ∀ v, (rowsFor db v).length ≤ 1)
    (h1 : JObj.get fields1 "user_id" = none)
    (h2 : JObj.get fields2 "user_id" = none) :
    (rowsFor ((saveProfile (AuthReply.ok u) fields2 tc2 DbReply.ok
        ((saveProfile (AuthReply.ok u) fields1 tc1 DbReply.ok db ts1).2) ts2).2)
        u).length = 1
    ∧ (∀ v, (rowsFor ((saveProfile (AuthReply.ok u) fields2 tc2 DbReply.ok
        ((saveProfile (AuthReply.ok u) fields1 tc1 DbReply.ok db ts1).2) ts2).2)
        v).length ≤ 1)
    ∧ (rowsFor db u = [] →
        (saveProfile (AuthReply.ok u) fields2 tc2 DbReply.ok
            ((saveProfile (AuthReply.ok u) fields1 tc1 DbReply.ok db ts1).2) ts2).2
          = db ++ [mergedRow (profileToSave u fields1 tc1)
              (profileToSave u fields2 tc2) ts2]) := by
  have hp1 : JObj.get (profileToSave u fields1 tc1) "user_id"
      = some (JValue.str u) := get_profileToSave_user_id u fields1 tc1 h1
  have hp2 : JObj.get (profileToSave u fields2 tc2) "user_id"
      = some (JValue.str u) := get_profileToSave_user_id u fields2 tc2 h2
  have hnd1 := profileToSave_keys_pairwise u fields1 tc1
  have hnd2 := profileToSave_keys_pairwise u fields2 tc2
  have e1 : (saveProfile (AuthReply.ok u) fields1 tc1 DbReply.ok db ts1).2
      = dbUpsert db (profileToSave u fields1 tc1) ts1 := rfl
  have e2 : ∀ d : List JObj,
      (saveProfile (AuthReply.ok u) fields2 tc2 DbReply.ok d ts2).2
        = dbUpsert d (profileToSave u fields2 tc2) ts2 := fun _ => rfl
  have self1 : rowsFor (dbUpsert db (profileToSave u fields1 tc1) ts1) u
      = [storedRow db (profileToSave u fields1 tc1) ts1] :=
    rowsFor_dbUpsert_self db _ ts1 u hp1 hnd1 (hinv u)
  have inv1 : ∀ v,
      (rowsFor (dbUpsert db (profileToSave u fields1 tc1) ts1) v).length ≤ 1 := by
    intro v
    by_cases hv : v = u
    · subst hv
      rw [self1]
      simp
    · rw [rowsFor_dbUpsert_other db _ ts1 u v hp1 hnd1 hv]
      exact hinv v
  have self2 : rowsFor
      (dbUpsert (dbUpsert db (profileToSave u fields1 tc1) ts1)
        (profileToSave u fields2 tc2) ts2) u
      = [storedRow (dbUpsert db (profileToSave u fields1 tc1) ts1)
          (profileToSave u fields2 tc2) ts2] :=
    rowsFor_dbUpsert_self _ _ ts2 u hp2 hnd2 (inv1 u)
  refine ⟨?_, ?_, ?_⟩
  · rw [e1, e2, self2]
    rfl
  · intro v
    rw [e1, e2]
    by_cases hv : v = u
    · subst hv
      rw [self2]
      simp
    · rw [rowsFor_dbUpsert_other _ _ ts2 u v hp2 hnd2 hv,
        rowsFor_dbUpsert_other db _ ts1 u v hp1 hnd1 hv]
      exact hinv v
  · intro hnil
    rw [e1, e2]
    exact dbUpsert_twice_fresh db _ _ ts1 ts2 u hp1 hp2 hnil

/-- Witness for C1: two saves for `u1` against an initially empty table
leave exactly one row, the first call's row updated with the second
call's columns. -/
theorem c1_save_upsert_single_row_witness :
    (rowsFor ((saveProfile (AuthReply.ok "u1") [] "t2" DbReply.ok
        ((saveProfile (AuthReply.ok "u1") [] "t1" DbReply.ok [] "s1").2) "s2").2)
        "u1").length = 1
    ∧ (saveProfile (AuthReply.ok "u1") [] "t2" DbReply.ok
        ((saveProfile (AuthReply.ok "u1") [] "t1" DbReply.ok [] "s1").2) "s2").2
        = [mergedRow (profileToSave "u1" [] "t1") (profileToSave "u1" [] "t2")
            "s2"] := by
  have h := c1_save_upsert_single_row [] [] [] "u1" "t1" "t2" "s1" "s2"
    (fun v => by simp [rowsFor]) rfl rfl
  exact ⟨h.1, by rw [h.2.2 rfl]; rfl⟩

/-- `loadProfile` always yields a well-formed result: no outcome throws,
and every declined result carries a non-empty message. -/
theorem loadProfile_resOk (reply : LoadReply) :
    resOk (loadProfile reply).success (loadProfile reply).error := by
  cases reply with
  | rows d => intro h; simp [loadProfile] at h
  | err code msg =>
    by_cases hcode : code = "PGRST116"
    · intro h; simp [loadProfile, hcode] at h
    · intro _
      exact ⟨"Failed to load profile: " ++ msg, by simp [loadProfile, hcode],
        append_ne_empty _ _ (by decide)⟩
  | thrown msg =>
    intro _
    exact ⟨"Failed to load profile: " ++ msg, rfl, append_ne_empty _ _ (by decide)⟩

/-- C9: for every input and every backend outcome — reported errors and
thrown exceptions alike — each helper (`uploadResume`, `saveProfile`,
`loadProfile`, `getCurrentUserWithProfile`) is a total function returning
a result with a boolean success flag, and carries a non-empty error
message whenever the flag is false; no exception crosses the helper
boundary (every thrown oracle outcome is mapped to a declined result). -/
theorem c9_uniform_results :
    (∀ (file : RFile) (userId : String) (ts : Nat)
        (storeReply : String → RFile → StoreReply) (publicUrl : String → String),
      resOk (uploadResume file userId ts storeReply publicUrl).1.success
        (uploadResume file userId ts storeReply publicUrl).1.error)
    ∧ (∀ (auth : AuthReply) (profileData : JObj) (clientNow : String)
        (reply : DbReply) (db : List JObj) (serverNow : String),
      resOk (saveProfile auth profileData clientNow reply db serverNow).1.success
        (saveProfile auth profileData clientNow reply db serverNow).1.error)
    ∧ (∀ reply : LoadReply,
      resOk (loadProfile reply).success (loadProfile reply).error)
    ∧ (∀ (auth : AuthReply) (reply : String → LoadReply),
      resOk (getCurrentUserWithProfile auth reply).success
        (getCurrentUserWithProfile auth reply).error) := by
  refine ⟨?_, ?_, loadProfile_resOk, ?_⟩
  · intro file userId ts storeReply publicUrl
    by_cases hmem : file.type ∈ allowedTypes
    · by_cases hbig : file.size > maxSize
      · intro _
        exact ⟨"File size too large. Please upload a file smaller than 10MB.",
          by simp [uploadResume, hmem, hbig], by decide⟩
      · cases hsr : storeReply (uploadFileName userId ts file.name) file with
        | ok => intro h; simp [uploadResume, hmem, hbig, hsr] at h
        | err m =>
          intro _
          exact ⟨"Upload failed: " ++ m, by simp [uploadResume, hmem, hbig, hsr],
            append_ne_empty _ _ (by decide)⟩
        | thrown m =>
          intro _
          exact ⟨"Upload failed: " ++ m, by simp [uploadResume, hmem, hbig, hsr],
            append_ne_empty _ _ (by decide)⟩
    · intro _
      exact ⟨"Invalid file type. Please upload a PDF, DOC, or DOCX file.",
        by simp [uploadResume, hmem], by decide⟩
  · intro auth profileData clientNow reply db serverNow
    cases auth with
    | noUser => intro _; exact ⟨"User not authenticated", rfl, by decide⟩
    | thrown m =>
      intro _
      exact ⟨"Failed to save profile: " ++ m, rfl, append_ne_empty _ _ (by decide)⟩
    | ok uid =>
      cases reply with
      | ok => intro h; simp [saveProfile] at h
      | err m =>
        intro _
        exact ⟨"Failed to save profile: " ++ m, rfl, append_ne_empty _ _ (by decide)⟩
      | thrown m =>
        intro _
        exact ⟨"Failed to save profile: " ++ m, rfl, append_ne_empty _ _ (by decide)⟩
  · intro auth reply
    cases auth with
    | noUser => intro _; exact ⟨"User not authenticated", rfl, by decide⟩
    | thrown m =>
      intro _
      exact ⟨"Failed to get user data: " ++ m, rfl, append_ne_empty _ _ (by decide)⟩
    | ok uid =>
      by_cases hpr : (loadProfile (reply uid)).success = true
      · intro h
        simp [getCurrentUserWithProfile, hpr] at h
      · intro _
        rcases loadProfile_resOk (reply uid) (by simpa using hpr) with ⟨m, hm, hne⟩
        exact ⟨m, by simp [getCurrentUserWithProfile, hpr, hm], hne⟩

/-- Witness for C9: a declined outcome of each helper carries a non-empty
message. -/
theorem c9_uniform_results_witness :
    (∃ m, (uploadResume txtFile "u1" 0 (fun _ _ => StoreReply.ok) id).1.error
        = some m ∧ m ≠ "")
    ∧ (∃ m, (saveProfile AuthReply.noUser [] "t" DbReply.ok [] "s").1.error
        = some m ∧ m ≠ "")
    ∧ (∃ m, (loadProfile (LoadReply.thrown "boom")).error = some m ∧ m ≠ "")
    ∧ (∃ m, (getCurrentUserWithProfile (AuthReply.ok "u1")
        (fun _ => LoadReply.thrown "boom")).error = some m ∧ m ≠ "") :=
  ⟨c9_uniform_results.1 txtFile "u1" 0 (fun _ _ => StoreReply.ok) id (by decide),
   c9_uniform_results.2.1 AuthReply.noUser [] "t" DbReply.ok [] "s" (by decide),
   c9_uniform_results.2.2.1 (LoadReply.thrown "boom") (by decide),
   c9_uniform_results.2.2.2 (AuthReply.ok "u1") (fun _ => LoadReply.thrown "boom")
     (by decide)⟩

/-- Whatever the save outcome, the save stage appends exactly one
`saveProfile` invocation to the effects accumulated so far. -/
theorem submitSave_effects (s1 : FormState) (resumeUrl : String) (db : List JObj)
    (env : SubmitEnv) (eff : List SubmitEffect) :
    (submitSave s1 resumeUrl db env eff).2.2
      = eff ++ [SubmitEffect.saveCall (submitPayload s1 resumeUrl)] := by
  unfold submitSave
  by_cases h : (saveProfile env.auth (submitPayload s1 resumeUrl) env.clientNow
      env.dbReply db env.serverNow).1.success = true
  · simp [h]
  · simp [h]

/-- C6: with a session user, a submission runs the upload strictly before
the save. If a file is staged and the upload declines, the whole
submission aborts: the only helper invocation is the upload (so no save
call is made and the table is untouched), the upload's error message is
shown, and the form returns to a non-saving state. With no file staged,
the only invocation is the save and its payload reuses the existing
resume URL unchanged. In every case upload invocations precede save
invocations. -/
theorem c6_submit_upload_before_save (s : FormState) (db : List JObj)
    (env : SubmitEnv) (uid : String) (hu : s.user = some uid) :
    (∀ f : RFile, s.resumeFile = some f →
      (uploadResume f uid env.ts env.storeReply env.publicUrl).1.success = false →
      (handleSubmit s db env).2.2 = [SubmitEffect.uploadCall f]
        ∧ (handleSubmit s db env).1.saving = false
        ∧ (handleSubmit s db env).1.error
            = ((uploadResume f uid env.ts env.storeReply env.publicUrl).1.error).getD ""
        ∧ (handleSubmit s db env).2.1 = db)
    ∧ (s.resumeFile = none →
        (handleSubmit s db env).2.2
            = [SubmitEffect.saveCall (submitPayload s s.existingResumeUrl)]
          ∧ JObj.get (submitPayload s s.existingResumeUrl) "resume_url"
              = some (JValue.str s.existingResumeUrl))
    ∧ uploadsPrecedeSaves (handleSubmit s db env).2.2 = true := by
  refine ⟨fun f hf hfail => ?_, fun hnone => ?_, ?_⟩
  · have e1 : (handleSubmit s db env).2.2 = [SubmitEffect.uploadCall f] := by
      unfold handleSubmit
      rw [hu, hf]
      simp [hfail]
    have e2 : (handleSubmit s db env).1 = { s with saving := false, success := "", error := ((uploadResume f uid env.ts env.storeReply env.publicUrl).1.error).getD "" } := by
      unfold handleSubmit
      rw [hu, hf]
      simp [hfail]
    have e3 : (handleSubmit s db env).2.1 = db := by
      unfold handleSubmit
      rw [hu, hf]
      simp [hfail]
    exact ⟨e1, by rw [e2], by rw [e2], e3⟩
  · have e : handleSubmit s db env
        = submitSave { s with saving := true, error := "", success := "" }
            s.existingResumeUrl db env [] := by
      unfold handleSubmit
      rw [hu, hnone]
    constructor
    · rw [e, submitSave_effects]
      rfl
    · simp [submitPayload, JObj.get]
  · cases hf : s.resumeFile with
    | none =>
      have e : handleSubmit s db env
          = submitSave { s with saving := true, error := "", success := "" }
              s.existingResumeUrl db env [] := by
        unfold handleSubmit
        rw [hu, hf]
      rw [e, submitSave_effects]
      rfl
    | some f =>
      by_cases hup : (uploadResume f uid env.ts env.storeReply
          env.publicUrl).1.success = true
      · have e : handleSubmit s db env
            = submitSave { s with saving := true, error := "", success := "" }
                (((uploadResume f uid env.ts env.storeReply env.publicUrl).1.url).getD "")
                db env [SubmitEffect.uploadCall f] := by
          unfold handleSubmit
          rw [hu, hf]
          simp [hup]
        rw [e, submitSave_effects]
        rfl
      · have e : (handleSubmit s db env).2.2 = [SubmitEffect.uploadCall f] := by
          unfold handleSubmit
          rw [hu, hf]
          simp [hup]
        rw [e]
        rfl

/-- Witness for C6: submitting with a staged text file aborts before the
save — the only invocation is the upload, the type error is shown, the
form is non-saving, and the table is untouched. -/
theorem c6_submit_upload_before_save_witness :
    (handleSubmit stagedBadForm [] okEnv).2.2 = [SubmitEffect.uploadCall txtFile]
      ∧ (handleSubmit stagedBadForm [] okEnv).1.saving = false
      ∧ (handleSubmit stagedBadForm [] okEnv).1.error
          = "Invalid file type. Please upload a PDF, DOC, or DOCX file."
      ∧ (handleSubmit stagedBadForm [] okEnv).2.1 = [] := by
  have h := (c6_submit_upload_before_save stagedBadForm [] okEnv "u1"
    (by decide)).1 txtFile (by decide) (by decide)
  refine ⟨h.1, h.2.1, ?_, h.2.2.2⟩
  rw [h.2.2.1]
  decide

/-- C8 fails on its `resume_url unset` part: for a brand-new identity the
form submits `resume_url: ''` (the empty-string value of the untouched
`existingResumeUrl` state), so the single stored row carries the
`resume_url` key bound to the empty string — the column is set, not
absent. -/
theorem c8_counterexample :
    ((handleSubmit freshForm [] okEnv).2.1.map (fun r => JObj.get r "resume_url"))
        = [some (JValue.str "")]
      ∧ ((handleSubmit freshForm [] okEnv).2.1.map (fun r => JObj.get r "resume_url"))
          ≠ [(none : Option JValue)] :=
  ⟨by decide, by decide⟩

/-- C8 amended: a brand-new identity submitting the form with skills text
`"Go, Rust"`, no file staged and experience level `mid` ends with exactly
one saved row whose `skills` are `["Go", "Rust"]` and
`experience_level` is `"mid"`, and whose `resume_url` is the empty
string (the form's no-resume value) rather than absent; the form reports
success. -/
theorem c8_fresh_submit :
    ((handleSubmit freshForm [] okEnv).2.1.map (fun r =>
        (JObj.get r "skills", JObj.get r "experience_level")))
        = [(some (JValue.arr ["Go", "Rust"]), some (JValue.str "mid"))]
      ∧ ((handleSubmit freshForm [] okEnv).2.1.map (fun r => JObj.get r "resume_url"))
          = [some (JValue.str "")]
      ∧ (handleSubmit freshForm [] okEnv).1.success = "Profile saved successfully!" :=
  ⟨by decide, by decide, by decide⟩

end MatchMySkills
